import Mathlib

/-!
Shallow embedding of the authentication and authorization core of
`src/index.js`: an Express application with signup, login, a members page,
an admin page, promote/demote role mutations and logout, backed by a
MongoDB user collection and a `connect-mongo` session store.

Machine-level conventions of the embedding:
* MongoDB ObjectIds are modelled as `Nat` (server-generated, unique).
* The user collection is a `List UserRec` in insertion order;
  `User.findOne` without a sort returns the first match in natural
  (insertion) order, `User.create` appends, `User.updateOne` updates the
  first matching document.
* The session store is an association list from opaque tokens (`Nat`) to
  session records; each request carries its cookie token and the current
  time (milliseconds) explicitly.
* Request bodies are records of `Option String` fields (a missing form
  field is `none`).
* External libraries (bcrypt, Joi's interpretation of the schema,
  express-session/connect-mongo) are modelled from the specification's
  interface contracts; everything else is translated from `src/index.js`.
-/

set_option autoImplicit false

/-- The session snapshot `{ name, email, user_type }` stored into
`req.session.user` at signup (src/index.js:89) and login (src/index.js:112). -/
structure SessionUser where
  name : String
  email : String
  user_type : String
  deriving DecidableEq, Repr

/-- A document of the `User` collection (schema at src/index.js:26-31):
`name`, `email`, `password` (a bcrypt digest, modelled as a list of
characters) and `user_type`, plus the server-generated `_id`. -/
structure UserRec where
  _id : Nat
  name : String
  email : String
  password : List Char
  user_type : String
  deriving DecidableEq, Repr

/-- A record of the server-side session store: the session data (here only
the `user` snapshot, the single field the application writes) and the
absolute expiry timestamp derived from the cookie `maxAge`. -/
structure SessionRec where
  user : SessionUser
  expires : Nat
  deriving DecidableEq, Repr

/-- The whole mutable state the core touches: the user collection, the
next fresh `_id`, and the session store. -/
structure AppState where
  users : List UserRec
  nextId : Nat
  sessions : List (Nat × SessionRec)
  deriving DecidableEq, Repr

/-- The responses the routes of src/index.js can produce. -/
inductive Response where
  /-- Models `res.redirect(path)`. -/
  | redirect (path : String)
  /-- Models `res.render('index', { user })` — the landing page (src/index.js:63, 124). -/
  | renderIndex (user : Option SessionUser)
  /-- Models `res.render('signup')`. -/
  | renderSignup
  /-- Models `res.render('login')`. -/
  | renderLogin
  /-- Models `res.render('cats', { user, images })` — the gated members page. -/
  | renderCats (user : SessionUser) (images : List String)
  /-- Models `res.render('admin', { users })` — the user list (src/index.js:128). -/
  | renderAdmin (users : List UserRec)
  /-- Models `res.status(403).render('403')` — the forbidden response (src/index.js:58). -/
  | render403
  /-- Models `res.status(404).render('404')` (src/index.js:154). -/
  | render404
  /-- Models `res.send('<p>' + msg + '</p><a href="' + retry + '">Try again</a>')` —
  an inline message with a retry link. -/
  | sendMsg (msg : String) (retry : String)
  deriving DecidableEq, Repr

/-! ## Password hasher

Modelled from the spec: bcrypt (`bcrypt.hash(password, 10)` at
src/index.js:81 and `bcrypt.compare` at src/index.js:109) is an external
library; §4.2 specifies `hash` as a one-way function with a per-call
random salt and `verify` as the matching check.  The model makes the salt
an explicit argument (bcrypt salts are base64 text, so they contain no
`$` separator) and a digest the text `$2b$10$` ++ salt ++ `$` ++ plaintext;
`verify` parses the digest back.  Plaintexts and digests are lists of
characters. -/

/-- Split a list of characters at the first `$`, dropping the separator. -/
def splitAtDollar : List Char → List Char × List Char
  | [] => ([], [])
  | c :: rest =>
    if c = '$' then ([], rest)
    else
      let p := splitAtDollar rest
      (c :: p.1, p.2)

/-- Modelled from the spec: `bcrypt.hash` with an explicit salt. -/
def bhash (salt p : List Char) : List Char :=
  "$2b$10$".data ++ salt ++ '$' :: p

/-- Modelled from the spec: `bcrypt.compare p digest`. -/
def bverify (p d : List Char) : Bool :=
  (List.take 7 d == "$2b$10$".data) && ((splitAtDollar (List.drop 7 d)).2 == p)

/-! ## Session manager

Modelled from the spec: express-session with the `connect-mongo` backing
store configured at src/index.js:38-48 (`cookie.maxAge = 1000*60*60`) is an
external library; §4.3 specifies `create_session` (store the snapshot under
the token with expiry now + TTL), `load_session` (none when absent, unknown
or expired) and `destroy_session` (idempotent removal,
`req.session.destroy` at src/index.js:148). -/

/-- The session TTL: `cookie.maxAge = 1000 * 60 * 60` milliseconds
(src/index.js:47). -/
def sessionTTL : Nat := 1000 * 60 * 60

/-- Look a token up in the raw session store. -/
def lookupSession (ss : List (Nat × SessionRec)) (token : Nat) : Option SessionRec :=
  (ss.find? (fun pr => pr.1 == token)).map (fun pr => pr.2)

/-- Modelled from the spec: `create_session` — store the snapshot under the
token with expiry `now + sessionTTL` (overwriting any record under the same
token). -/
def createSession (st : AppState) (token : Nat) (u : SessionUser) (now : Nat) : AppState :=
  { st with sessions := (token, ⟨u, now + sessionTTL⟩) :: st.sessions.filter (fun pr => pr.1 != token) }

/-- Modelled from the spec: `load_session` — `none` when the token is
absent, unknown or expired. -/
def loadSession (st : AppState) (token now : Nat) : Option SessionRec :=
  match lookupSession st.sessions token with
  | some r => if now < r.expires then some r else none
  | none => none

/-- Modelled from the spec: `destroy_session` — remove the record for the
token regardless of prior existence. -/
def destroySession (st : AppState) (token : Nat) : AppState :=
  { st with sessions := st.sessions.filter (fun pr => pr.1 != token) }

/-- The value of `req.session.user` as seen by a request carrying `token` at time `now`:
the snapshot of the loaded session, if any. -/
def sessionUserOf (st : AppState) (token now : Nat) : Option SessionUser :=
  (loadSession st token now).map (fun r => r.user)

/-! ## Access control gates (src/index.js:51-59) -/

/-- Middleware `isAuthenticated` (src/index.js:51-54): pass on to the handler when
`req.session.user` is set, else `res.redirect('/login')`.  The `ok` value
carries the session user the handler then reads. -/
def isAuthenticated (sess : Option SessionUser) : Except Response SessionUser :=
  match sess with
  | some u => Except.ok u
  | none => Except.error (Response.redirect "/login")

/-- Middleware `isAdmin` (src/index.js:56-59): pass when
`req.session.user?.user_type === 'admin'`, else `res.status(403).render('403')`. -/
def isAdmin (sess : Option SessionUser) : Except Response Unit :=
  match sess with
  | some u => if u.user_type = "admin" then Except.ok () else Except.error Response.render403
  | none => Except.error Response.render403

/-! ## Input validation (Joi schemas at src/index.js:71-76 and 98-101)

Modelled from the spec: Joi is an external library; §6 gives the semantics
of these two schemas as "name ≤30 chars required; email valid-syntax
required; password 5–30 chars required; role ∈ \x7buser, admin\x7d optional
(default user)" for signup and "email required valid, password 5–30 chars
required" for login. -/

/-- Split a list of characters into the groups separated by `sep`. -/
def splitChar (sep : Char) : List Char → List (List Char)
  | [] => [[]]
  | c :: cs =>
    if c = sep then [] :: splitChar sep cs
    else
      match splitChar sep cs with
      | [] => [[c]]
      | g :: gs => (c :: g) :: gs

/-- Modelled from the spec: Joi's "valid email syntax" — one `@` with a
nonempty local part and a domain of at least two nonempty dot-separated
labels. -/
def validEmail (e : String) : Bool :=
  match splitChar '@' e.data with
  | [l, d] =>
    (!l.isEmpty) && (!d.isEmpty) &&
      (decide ((splitChar '.' d).length ≥ 2)) && ((splitChar '.' d).all (fun s => !s.isEmpty))
  | _ => false

/-- The body of a `POST /signup` request (urlencoded form fields). -/
structure SignupBody where
  name : Option String
  email : Option String
  password : Option String
  user_type : Option String
  deriving DecidableEq, Repr

/-- The validated value Joi returns for the signup schema (defaults applied). -/
structure SignupVal where
  name : String
  email : String
  password : String
  user_type : String
  deriving DecidableEq, Repr

/-- The signup schema of src/index.js:71-76: `name` required, at most 30
chars; `email` required, valid syntax; `password` required, 5–30 chars;
`user_type` optional, `user` or `admin`, default `user`.  Returns the first
violation's message (`error.details[0].message`) or the validated value. -/
def signupValidate (b : SignupBody) : Except String SignupVal :=
  match b.name with
  | none => Except.error "name is required"
  | some n =>
    if n.length > 30 then Except.error "name length must be at most 30 characters" else
    match b.email with
    | none => Except.error "email is required"
    | some e =>
      if !(validEmail e) then Except.error "email must be a valid email" else
      match b.password with
      | none => Except.error "password is required"
      | some p =>
        if p.length < 5 then Except.error "password length must be at least 5 characters" else
        if p.length > 30 then Except.error "password length must be at most 30 characters" else
        match b.user_type with
        | none => Except.ok ⟨n, e, p, "user"⟩
        | some r =>
          if r = "user" ∨ r = "admin" then Except.ok ⟨n, e, p, r⟩
          else Except.error "user_type must be one of user, admin"

/-- The body of a `POST /login` request. -/
structure LoginBody where
  email : Option String
  password : Option String
  deriving DecidableEq, Repr

/-- The validated value Joi returns for the login schema. -/
structure LoginVal where
  email : String
  password : String
  deriving DecidableEq, Repr

/-- The login schema of src/index.js:98-101: `email` required, valid
syntax; `password` required, 5–30 chars. -/
def loginValidate (b : LoginBody) : Except String LoginVal :=
  match b.email with
  | none => Except.error "email is required"
  | some e =>
    if !(validEmail e) then Except.error "email must be a valid email" else
    match b.password with
    | none => Except.error "password is required"
    | some p =>
      if p.length < 5 then Except.error "password length must be at least 5 characters" else
      if p.length > 30 then Except.error "password length must be at most 30 characters" else
      Except.ok ⟨e, p⟩

/-! ## Route handlers (src/index.js:62-155) -/

/-- Models `User.findOne({ email })` (src/index.js:106): first match in natural
order. -/
def findByEmail (users : List UserRec) (e : String) : Option UserRec :=
  users.find? (fun u => u.email == e)

/-- Models `User.updateOne({ _id }, { $set: { user_type: role } })`
(src/index.js:132-135, 140-143): update the first matching document; a
silent no-op when no document matches. -/
def updateOne (users : List UserRec) (id : Nat) (role : String) : List UserRec :=
  match users with
  | [] => []
  | u :: rest =>
    if u._id = id then { u with user_type := role } :: rest
    else u :: updateOne rest id role

/-- Route `GET /` (src/index.js:62-64). -/
def route_index (sess : Option SessionUser) : Response :=
  Response.renderIndex sess

/-- Route `POST /signup` (src/index.js:70-91): validate, hash the password,
create the user, set the session snapshot, redirect to `/members`.  The
bcrypt salt drawn for this request is an explicit argument. -/
def postSignup (st : AppState) (token : Nat) (now : Nat) (salt : List Char)
    (b : SignupBody) : AppState × Response :=
  match signupValidate b with
  | Except.error m => (st, Response.sendMsg m "/signup")
  | Except.ok v =>
    let hashed := bhash salt v.password.data
    let newUser : UserRec := ⟨st.nextId, v.name, v.email, hashed, v.user_type⟩
    let snap : SessionUser := ⟨newUser.name, newUser.email, newUser.user_type⟩
    (createSession { st with users := st.users ++ [newUser], nextId := st.nextId + 1 }
      token snap now,
     Response.redirect "/members")

/-- Route `POST /login` (src/index.js:97-114): validate, look the email up,
compare the password, set the session snapshot, redirect to `/members`. -/
def postLogin (st : AppState) (token : Nat) (now : Nat) (b : LoginBody) :
    AppState × Response :=
  match loginValidate b with
  | Except.error m => (st, Response.sendMsg m "/login")
  | Except.ok v =>
    match findByEmail st.users v.email with
    | none => (st, Response.sendMsg "User not found" "/login")
    | some u =>
      if bverify v.password.data u.password then
        (createSession st token ⟨u.name, u.email, u.user_type⟩ now,
         Response.redirect "/members")
      else (st, Response.sendMsg "Invalid password" "/login")

/-- Route `GET /members` (src/index.js:116-119), behind `isAuthenticated`. -/
def route_members (sess : Option SessionUser) : Response :=
  match isAuthenticated sess with
  | Except.error r => r
  | Except.ok u => Response.renderCats u ["cat1.jpg", "cat2.jpg", "cat3.jpg"]

/-- Route `GET /admin` (src/index.js:122-129), behind `isAuthenticated`: a
non-admin session gets the landing page; an admin session gets the list of
all users (`User.find()`). -/
def route_admin (st : AppState) (sess : Option SessionUser) : Response :=
  match isAuthenticated sess with
  | Except.error r => r
  | Except.ok u =>
    if u.user_type ≠ "admin" then Response.renderIndex (some u)
    else Response.renderAdmin st.users

/-- Route `GET /promote/:id` (src/index.js:131-137), behind `isAuthenticated`
and `isAdmin`: set the target's `user_type` to `admin`, redirect to
`/admin`. -/
def route_promote (st : AppState) (sess : Option SessionUser) (id : Nat) :
    AppState × Response :=
  match isAuthenticated sess with
  | Except.error r => (st, r)
  | Except.ok _ =>
    match isAdmin sess with
    | Except.error r => (st, r)
    | Except.ok _ =>
      ({ st with users := updateOne st.users id "admin" }, Response.redirect "/admin")

/-- Route `GET /demote/:id` (src/index.js:139-145), behind `isAuthenticated`
and `isAdmin`: set the target's `user_type` to `user`, redirect to
`/admin`. -/
def route_demote (st : AppState) (sess : Option SessionUser) (id : Nat) :
    AppState × Response :=
  match isAuthenticated sess with
  | Except.error r => (st, r)
  | Except.ok _ =>
    match isAdmin sess with
    | Except.error r => (st, r)
    | Except.ok _ =>
      ({ st with users := updateOne st.users id "user" }, Response.redirect "/admin")

/-- Route `GET /logout` (src/index.js:147-151): destroy the session, redirect to
`/`. -/
def route_logout (st : AppState) (token : Nat) : AppState × Response :=
  (destroySession st token, Response.redirect "/")

/-- The acceptance condition of C5, written from the claim's own words:
name present with length ≤ 30, email present with valid syntax, password
present with length between 5 and 30, role absent or `user` or `admin`. -/
def claimAccepts (b : SignupBody) : Bool :=
  (match b.name with | some n => decide (n.length ≤ 30) | none => false) &&
  (match b.email with | some e => validEmail e | none => false) &&
  (match b.password with | some p => decide (5 ≤ p.length) && decide (p.length ≤ 30) | none => false) &&
  (match b.user_type with | none => true | some r => r == "user" || r == "admin")

/-! ## Helper lemmas -/

lemma splitAtDollar_append (salt p : List Char) (h : '$' ∉ salt) :
    splitAtDollar (salt ++ '$' :: p) = (salt, p) := by
  induction salt with
  | nil => simp [splitAtDollar]
  | cons c cs ih =>
    have hc : c ≠ '$' := fun hh => h (hh ▸ List.mem_cons_self c cs)
    have hcs : '$' ∉ cs := fun hh => h (List.mem_cons_of_mem c hh)
    simp [splitAtDollar, hc, ih hcs]

lemma bhash_unfold (salt p : List Char) :
    bhash salt p = "$2b$10$".data ++ (salt ++ '$' :: p) := by
  simp [bhash]

lemma bverify_bhash (salt p : List Char) (h : '$' ∉ salt) :
    bverify p (bhash salt p) = true := by
  have h7 : (7 : Nat) = ("$2b$10$".data).length := rfl
  rw [bverify, bhash_unfold, h7, List.take_left, List.drop_left,
    splitAtDollar_append _ _ h]
  simp

lemma bverify_bhash_ne (salt p q : List Char) (h : '$' ∉ salt) (hne : q ≠ p) :
    bverify q (bhash salt p) = false := by
  have h7 : (7 : Nat) = ("$2b$10$".data).length := rfl
  rw [bverify, bhash_unfold, h7, List.take_left, List.drop_left,
    splitAtDollar_append _ _ h]
  simp [Ne.symm hne]

lemma bhash_length (salt p : List Char) :
    (bhash salt p).length = salt.length + p.length + 8 := by
  simp [bhash]
  omega

/-! ## Claim theorems -/

/-- C1: on a request with no session, the `isAdmin` gate responds with the
403 forbidden response while the `isAuthenticated` gate responds with a
redirect to the login page; the two responses are distinct, so neither
gate implies the other's response. -/
theorem no_session_forbidden_vs_redirect :
    isAdmin none = Except.error Response.render403 ∧
    isAuthenticated none = Except.error (Response.redirect "/login") ∧
    Response.render403 ≠ Response.redirect "/login" :=
  ⟨rfl, rfl, by decide⟩

/-- C4: `GET /admin` with a session attached renders the landing page
(with the session identity) when the snapshot role is not `admin`, and the
list of all stored users when it is. -/
theorem admin_route_with_session (st : AppState) (u : SessionUser) :
    route_admin st (some u) =
      if u.user_type = "admin" then Response.renderAdmin st.users
      else Response.renderIndex (some u) := by
  by_cases h : u.user_type = "admin" <;> simp [route_admin, isAuthenticated, h]

theorem admin_route_with_session_witness :
    route_admin ⟨[], 0, []⟩ (some ⟨"A", "a@x.com", "user"⟩) =
      Response.renderIndex (some ⟨"A", "a@x.com", "user"⟩) := by
  have h := admin_route_with_session ⟨[], 0, []⟩ ⟨"A", "a@x.com", "user"⟩
  simpa using h

/-- C9: for the modelled bcrypt pair (any valid salt, i.e. one without the
`$` separator), the digest differs from the plaintext, verification of the
correct plaintext succeeds, and verification of any other plaintext
fails. -/
theorem bcrypt_hash_verify (salt p q : List Char) (hs : '$' ∉ salt) :
    bhash salt p ≠ p ∧
    bverify p (bhash salt p) = true ∧
    (q ≠ p → bverify q (bhash salt p) = false) := by
  refine ⟨fun hh => ?_, bverify_bhash salt p hs, fun hne => bverify_bhash_ne salt p q hs hne⟩
  have := bhash_length salt p
  rw [hh] at this
  omega

theorem bcrypt_hash_verify_witness :
    ('$' ∉ "ab".data) ∧
    (bhash "ab".data "secret".data ≠ "secret".data ∧
     bverify "secret".data (bhash "ab".data "secret".data) = true ∧
     ("Secret".data ≠ "secret".data →
       bverify "Secret".data (bhash "ab".data "secret".data) = false)) :=
  ⟨by decide, bcrypt_hash_verify "ab".data "secret".data "Secret".data (by decide)⟩

lemma find?_filter_token (ss : List (Nat × SessionRec)) (token : Nat) :
    (ss.filter (fun pr => pr.1 != token)).find? (fun pr => pr.1 == token) = none := by
  apply List.find?_eq_none.mpr
  intro x hx
  have h2 := (List.mem_filter.mp hx).2
  simp only [bne_iff_ne, ne_eq] at h2
  simp [h2]

lemma loadSession_destroy (st : AppState) (token now : Nat) :
    loadSession (destroySession st token) token now = none := by
  unfold loadSession lookupSession destroySession
  rw [find?_filter_token]
  rfl

lemma lookupSession_destroy (st : AppState) (token : Nat) :
    lookupSession (destroySession st token).sessions token = none := by
  unfold lookupSession destroySession
  rw [find?_filter_token]
  rfl

lemma destroySession_idem (st : AppState) (token : Nat) :
    destroySession (destroySession st token) token = destroySession st token := by
  simp [destroySession, List.filter_filter]

lemma loadSession_create_expired (st : AppState) (token : Nat) (u : SessionUser)
    (created now : Nat) (h : created + sessionTTL ≤ now) :
    loadSession (createSession st token u created) token now = none := by
  have hlt : ¬ (now < created + sessionTTL) := by omega
  simp [loadSession, createSession, lookupSession, List.find?, hlt]

/-- C8: `load_session` returns none after `destroy_session` (for any query
time), the destroyed token is gone from the store regardless of prior
existence, `destroy_session` is idempotent, and `load_session` returns
none once the 1-hour TTL has elapsed since creation even without an
explicit destroy. -/
theorem session_destroy_and_ttl (st : AppState) (token : Nat) (u : SessionUser)
    (created now now2 : Nat) :
    loadSession (destroySession st token) token now = none ∧
    lookupSession (destroySession st token).sessions token = none ∧
    destroySession (destroySession st token) token = destroySession st token ∧
    (created + sessionTTL ≤ now2 →
      loadSession (createSession st token u created) token now2 = none) :=
  ⟨loadSession_destroy st token now, lookupSession_destroy st token,
   destroySession_idem st token,
   fun h => loadSession_create_expired st token u created now2 h⟩

theorem session_destroy_and_ttl_witness :
    loadSession (destroySession ⟨[], 0, [(5, ⟨⟨"A", "a@x.com", "user"⟩, 999⟩)]⟩ 5) 5 1 = none ∧
    lookupSession (destroySession ⟨[], 0, [(5, ⟨⟨"A", "a@x.com", "user"⟩, 999⟩)]⟩ 5).sessions 5 = none ∧
    destroySession (destroySession ⟨[], 0, [(5, ⟨⟨"A", "a@x.com", "user"⟩, 999⟩)]⟩ 5) 5 =
      destroySession ⟨[], 0, [(5, ⟨⟨"A", "a@x.com", "user"⟩, 999⟩)]⟩ 5 ∧
    loadSession (createSession ⟨[], 0, [(5, ⟨⟨"A", "a@x.com", "user"⟩, 999⟩)]⟩ 5 ⟨"A", "a@x.com", "user"⟩ 100) 5 3600100 = none := by
  have h := session_destroy_and_ttl ⟨[], 0, [(5, ⟨⟨"A", "a@x.com", "user"⟩, 999⟩)]⟩ 5
    ⟨"A", "a@x.com", "user"⟩ 100 1 3600100
  exact ⟨h.1, h.2.1, h.2.2.1, h.2.2.2 (by decide)⟩

lemma updateOne_not_found (users : List UserRec) (id : Nat) (role : String)
    (h : ∀ v ∈ users, v._id ≠ id) : updateOne users id role = users := by
  induction users with
  | nil => rfl
  | cons u rest ih =>
    have hu : u._id ≠ id := h u (List.mem_cons_self u rest)
    simp [updateOne, hu, ih (fun v hv => h v (List.mem_cons_of_mem u hv))]

lemma updateOne_sets (users : List UserRec) (id : Nat) (role : String)
    (h : ∃ v ∈ users, v._id = id) :
    ∃ w ∈ updateOne users id role, w._id = id ∧ w.user_type = role := by
  induction users with
  | nil => rcases h with ⟨v, hv, _⟩; cases hv
  | cons u rest ih =>
    by_cases hu : u._id = id
    · refine ⟨{ u with user_type := role }, ?_, hu, rfl⟩
      simp [updateOne, hu]
    · rcases h with ⟨v, hv, hvid⟩
      rcases List.mem_cons.mp hv with rfl | hvrest
      · exact absurd hvid hu
      · rcases ih ⟨v, hvrest, hvid⟩ with ⟨w, hw, hwp⟩
        refine ⟨w, ?_, hwp⟩
        simp [updateOne, hu, hw]

/-- C6: for an admin session, `/promote/:id` (resp. `/demote/:id`) sets the
target's role unconditionally and redirects to `/admin`; with a nonexistent
id it still redirects, changes nothing, and surfaces no error. -/
theorem promote_demote_soft_fail (st : AppState) (u : SessionUser) (id : Nat)
    (hadm : u.user_type = "admin") :
    (route_promote st (some u) id).2 = Response.redirect "/admin" ∧
    (route_demote st (some u) id).2 = Response.redirect "/admin" ∧
    (route_promote st (some u) id).1.users = updateOne st.users id "admin" ∧
    (route_demote st (some u) id).1.users = updateOne st.users id "user" ∧
    ((∃ v ∈ st.users, v._id = id) →
      (∃ w ∈ (route_promote st (some u) id).1.users, w._id = id ∧ w.user_type = "admin") ∧
      (∃ w ∈ (route_demote st (some u) id).1.users, w._id = id ∧ w.user_type = "user")) ∧
    ((∀ v ∈ st.users, v._id ≠ id) →
      (route_promote st (some u) id).1 = st ∧ (route_demote st (some u) id).1 = st) := by
  have hr : route_promote st (some u) id =
      ({ st with users := updateOne st.users id "admin" }, Response.redirect "/admin") := by
    simp [route_promote, isAuthenticated, isAdmin, hadm]
  have hd : route_demote st (some u) id =
      ({ st with users := updateOne st.users id "user" }, Response.redirect "/admin") := by
    simp [route_demote, isAuthenticated, isAdmin, hadm]
  rw [hr, hd]
  refine ⟨rfl, rfl, rfl, rfl,
    fun hex => ⟨updateOne_sets _ _ _ hex, updateOne_sets _ _ _ hex⟩,
    fun hall => ?_⟩
  constructor <;> · simp [updateOne_not_found _ _ _ hall]

theorem promote_demote_soft_fail_witness :
    (route_promote ⟨[⟨0, "B", "b@x.com", [], "user"⟩], 1, []⟩ (some ⟨"R", "r@x.com", "admin"⟩) 9).2 =
      Response.redirect "/admin" ∧
    (route_promote ⟨[⟨0, "B", "b@x.com", [], "user"⟩], 1, []⟩ (some ⟨"R", "r@x.com", "admin"⟩) 9).1 =
      ⟨[⟨0, "B", "b@x.com", [], "user"⟩], 1, []⟩ := by
  have h := promote_demote_soft_fail ⟨[⟨0, "B", "b@x.com", [], "user"⟩], 1, []⟩
    ⟨"R", "r@x.com", "admin"⟩ 9 rfl
  exact ⟨h.1, (h.2.2.2.2.2 (by decide)).1⟩

/-- The per-record frame condition of C10: only `user_type` may differ, and
only for the record whose `_id` is the targeted one. -/
def roleFrame (id : Nat) (a b : UserRec) : Prop :=
  b._id = a._id ∧ b.name = a.name ∧ b.email = a.email ∧ b.password = a.password ∧
    (a._id ≠ id → b = a)

lemma roleFrame_refl (id : Nat) (us : List UserRec) :
    List.Forall₂ (roleFrame id) us us :=
  List.forall₂_same.mpr (fun _ _ => ⟨rfl, rfl, rfl, rfl, fun _ => rfl⟩)

lemma updateOne_roleFrame (users : List UserRec) (id : Nat) (role : String) :
    List.Forall₂ (roleFrame id) users (updateOne users id role) := by
  induction users with
  | nil => exact List.Forall₂.nil
  | cons u rest ih =>
    by_cases hu : u._id = id
    · simp only [updateOne, if_pos hu]
      exact List.Forall₂.cons ⟨rfl, rfl, rfl, rfl, fun hne => absurd hu hne⟩
        (roleFrame_refl id rest)
    · simp only [updateOne, if_neg hu]
      exact List.Forall₂.cons ⟨rfl, rfl, rfl, rfl, fun _ => rfl⟩ ih

/-- C10: promote and demote touch only the `user_type` field of the record
whose `_id` is the targeted id: every record keeps its `_id`, `name`,
`email` and `password`, every non-targeted record is unchanged entirely,
and the session store and id counter are untouched. -/
theorem promote_demote_frame (st : AppState) (sess : Option SessionUser) (id : Nat) :
    (route_promote st sess id).1.sessions = st.sessions ∧
    (route_demote st sess id).1.sessions = st.sessions ∧
    (route_promote st sess id).1.nextId = st.nextId ∧
    (route_demote st sess id).1.nextId = st.nextId ∧
    List.Forall₂ (roleFrame id) st.users (route_promote st sess id).1.users ∧
    List.Forall₂ (roleFrame id) st.users (route_demote st sess id).1.users := by
  cases sess with
  | none =>
    exact ⟨rfl, rfl, rfl, rfl, roleFrame_refl id st.users, roleFrame_refl id st.users⟩
  | some u =>
    by_cases hadm : u.user_type = "admin"
    · simp [route_promote, route_demote, isAuthenticated, isAdmin, hadm,
        updateOne_roleFrame]
    · simp [route_promote, route_demote, isAuthenticated, isAdmin, hadm]
      exact fun x _ => ⟨rfl, rfl, rfl, rfl, fun _ => rfl⟩

theorem promote_demote_frame_witness :
    (route_promote ⟨[⟨0, "B", "b@x.com", [], "user"⟩], 1,
        [(7, ⟨⟨"B", "b@x.com", "user"⟩, 999⟩)]⟩ (some ⟨"R", "r@x.com", "admin"⟩) 0).1.sessions =
      [(7, ⟨⟨"B", "b@x.com", "user"⟩, 999⟩)] :=
  (promote_demote_frame ⟨[⟨0, "B", "b@x.com", [], "user"⟩], 1,
    [(7, ⟨⟨"B", "b@x.com", "user"⟩, 999⟩)]⟩ (some ⟨"R", "r@x.com", "admin"⟩) 0).1

/-- Exhaustive case analysis of the signup schema: either the body meets
the claim's acceptance condition and Joi returns the validated value with
the role defaulted, or it does not and Joi returns some error message. -/
lemma signupValidate_cases (b : SignupBody) :
    (claimAccepts b = true ∧ ∃ n e p, b.name = some n ∧ b.email = some e ∧
        b.password = some p ∧
        signupValidate b = Except.ok ⟨n, e, p, (b.user_type).getD "user"⟩ ∧
        n.length ≤ 30 ∧ validEmail e = true ∧ 5 ≤ p.length ∧ p.length ≤ 30) ∨
    (claimAccepts b = false ∧ ∃ m, signupValidate b = Except.error m) := by
  rcases b with ⟨bn, be, bp, bt⟩
  cases bn with
  | none => exact Or.inr ⟨rfl, "name is required", rfl⟩
  | some n =>
    by_cases hn : n.length ≤ 30
    · have hn2 : ¬ (n.length > 30) := by omega
      cases be with
      | none =>
        refine Or.inr ⟨?_, "email is required", ?_⟩ <;> simp [claimAccepts, signupValidate, hn2]
      | some e =>
        by_cases he : validEmail e = true
        · cases bp with
          | none =>
            refine Or.inr ⟨?_, "password is required", ?_⟩ <;>
              simp [claimAccepts, signupValidate, hn2, he]
          | some p =>
            by_cases hp5 : 5 ≤ p.length
            · by_cases hp30 : p.length ≤ 30
              · have hp5n : ¬ (p.length < 5) := by omega
                have hp30n : ¬ (p.length > 30) := by omega
                cases bt with
                | none =>
                  refine Or.inl ⟨?_, n, e, p, rfl, rfl, rfl, ?_, hn, he, hp5, hp30⟩
                  · simp [claimAccepts, hn, he, hp5, hp30]
                  · simp [signupValidate, hn2, he, hp5n, hp30n]
                | some r =>
                  by_cases hr : r = "user" ∨ r = "admin"
                  · refine Or.inl ⟨?_, n, e, p, rfl, rfl, rfl, ?_, hn, he, hp5, hp30⟩
                    · rcases hr with hr | hr <;> simp [claimAccepts, hn, he, hp5, hp30, hr]
                    · simp [signupValidate, hn2, he, hp5n, hp30n, hr]
                  · refine Or.inr ⟨?_, "user_type must be one of user, admin", ?_⟩
                    · have hr1 : ¬ (r = "user") := fun hh => hr (Or.inl hh)
                      have hr2 : ¬ (r = "admin") := fun hh => hr (Or.inr hh)
                      simp [claimAccepts, hn, he, hp5, hp30, hr1, hr2]
                    · simp [signupValidate, hn2, he, hp5n, hp30n, hr]
              · have hp30n : p.length > 30 := by omega
                have hp5n : ¬ (p.length < 5) := by omega
                refine Or.inr ⟨?_, "password length must be at most 30 characters", ?_⟩ <;>
                  simp [claimAccepts, signupValidate, hn2, he, hp5n, hp30n, hp30]
            · have hp5n : p.length < 5 := by omega
              refine Or.inr ⟨?_, "password length must be at least 5 characters", ?_⟩ <;>
                simp [claimAccepts, signupValidate, hn2, he, hp5n, hp5]
        · have heb : validEmail e = false := by
            cases hval : validEmail e with
            | true => exact absurd hval he
            | false => rfl
          refine Or.inr ⟨?_, "email must be a valid email", ?_⟩ <;>
            simp [claimAccepts, signupValidate, hn2, heb]
    · have hn2 : n.length > 30 := by omega
      refine Or.inr ⟨?_, "name length must be at most 30 characters", ?_⟩ <;>
        simp [claimAccepts, signupValidate, hn, hn2]

/-- C5: `POST /signup` accepts exactly the bodies where `name` is present
with length ≤ 30, `email` is present with valid syntax, `password` is
present with length 5–30, and `user_type` is absent, `user` or `admin`;
an accepted body creates exactly one user whose role defaults to `user`
when the field is absent; a rejected body yields an inline message with
the signup retry link and leaves the state untouched. -/
theorem signup_validation_exact (st : AppState) (token now : Nat) (salt : List Char)
    (b : SignupBody) :
    ((postSignup st token now salt b).2 = Response.redirect "/members" ↔
      claimAccepts b = true) ∧
    (if claimAccepts b = true then
        ∃ n e p, b.name = some n ∧ b.email = some e ∧ b.password = some p ∧
          (postSignup st token now salt b).1.users =
            st.users ++ [⟨st.nextId, n, e, bhash salt p.data, (b.user_type).getD "user"⟩] ∧
          (postSignup st token now salt b).1.nextId = st.nextId + 1
      else
        (postSignup st token now salt b).1 = st ∧
        ∃ m, (postSignup st token now salt b).2 = Response.sendMsg m "/signup") := by
  rcases signupValidate_cases b with ⟨hacc, n, e, p, hbn, hbe, hbp, hok, _, _, _, _⟩ |
    ⟨hacc, m, herr⟩
  · rw [hacc]
    refine ⟨by simp [postSignup, hok], ?_⟩
    rw [if_pos rfl]
    exact ⟨n, e, p, hbn, hbe, hbp, by simp [postSignup, hok, createSession],
      by simp [postSignup, hok, createSession]⟩
  · rw [hacc]
    refine ⟨by simp [postSignup, herr], ?_⟩
    rw [if_neg (by simp)]
    exact ⟨by simp [postSignup, herr], m, by simp [postSignup, herr]⟩

theorem signup_validation_exact_witness :
    (postSignup ⟨[], 0, []⟩ 1 0 "ab".data ⟨some "A", some "a@x.com", some "secret", none⟩).2 =
      Response.redirect "/members" := by
  have h := signup_validation_exact ⟨[], 0, []⟩ 1 0 "ab".data
    ⟨some "A", some "a@x.com", some "secret", none⟩
  exact h.1.mpr (by decide)

/-- C7 as frozen is refuted by the code: a `POST /login` whose email is
syntactically invalid matches no stored user, yet the response is the Joi
validation message, not "User not found". -/
theorem login_not_found_counterexample :
    findByEmail (⟨[], 0, []⟩ : AppState).users "bad" = none ∧
    (postLogin ⟨[], 0, []⟩ 1 0 ⟨some "bad", some "secret"⟩).2 ≠
      Response.sendMsg "User not found" "/login" ∧
    (postLogin ⟨[], 0, []⟩ 1 0 ⟨some "bad", some "secret"⟩).2 =
      Response.sendMsg "email must be a valid email" "/login" := by
  refine ⟨rfl, ?_, rfl⟩
  decide

/-- C7 (amended): for every `POST /login` that passes the login-schema
validation and whose email matches no stored user, the response is the
inline "User not found" message with the login retry link, and the state —
in particular the session store — is unchanged. -/
theorem login_user_not_found (st : AppState) (token now : Nat) (b : LoginBody)
    (v : LoginVal) (hv : loginValidate b = Except.ok v)
    (hfind : findByEmail st.users v.email = none) :
    postLogin st token now b = (st, Response.sendMsg "User not found" "/login") := by
  simp [postLogin, hv, hfind]

theorem login_user_not_found_witness :
    postLogin ⟨[], 0, []⟩ 1 0 ⟨some "a@x.com", some "secret"⟩ =
      (⟨[], 0, []⟩, Response.sendMsg "User not found" "/login") :=
  login_user_not_found ⟨[], 0, []⟩ 1 0 ⟨some "a@x.com", some "secret"⟩
    ⟨"a@x.com", "secret"⟩ (by rfl) (by rfl)

lemma route_promote_sessions (st : AppState) (sess : Option SessionUser) (id : Nat) :
    (route_promote st sess id).1.sessions = st.sessions := by
  cases sess with
  | none => rfl
  | some u =>
    by_cases hadm : u.user_type = "admin" <;>
      simp [route_promote, isAuthenticated, isAdmin, hadm]

lemma route_demote_sessions (st : AppState) (sess : Option SessionUser) (id : Nat) :
    (route_demote st sess id).1.sessions = st.sessions := by
  cases sess with
  | none => rfl
  | some u =>
    by_cases hadm : u.user_type = "admin" <;>
      simp [route_demote, isAuthenticated, isAdmin, hadm]

lemma loadSession_congr (st st2 : AppState) (h : st2.sessions = st.sessions)
    (token now : Nat) : loadSession st2 token now = loadSession st token now := by
  simp [loadSession, lookupSession, h]

/-- C2: role mutations (`/promote/:id`, `/demote/:id`, by any acting
session) never touch the session store, so an active session keeps
returning the snapshot captured at signup/login, and both the `isAdmin`
gate and the `/admin` role check on that session are decided by the
snapshot role alone — a role change in the user store after login does
not affect the session's authorization until re-login. -/
theorem session_snapshot_stale (st : AppState) (sessA : Option SessionUser)
    (id : Nat) (token now : Nat) (u : SessionUser)
    (h : sessionUserOf st token now = some u) :
    (route_promote st sessA id).1.sessions = st.sessions ∧
    (route_demote st sessA id).1.sessions = st.sessions ∧
    sessionUserOf (route_promote st sessA id).1 token now = some u ∧
    sessionUserOf (route_demote st sessA id).1 token now = some u ∧
    isAdmin (sessionUserOf (route_promote st sessA id).1 token now) =
      (if u.user_type = "admin" then Except.ok () else Except.error Response.render403) ∧
    route_admin (route_promote st sessA id).1
        (sessionUserOf (route_promote st sessA id).1 token now) =
      (if u.user_type = "admin"
        then Response.renderAdmin (route_promote st sessA id).1.users
        else Response.renderIndex (some u)) := by
  have hp := route_promote_sessions st sessA id
  have hd := route_demote_sessions st sessA id
  have hup : sessionUserOf (route_promote st sessA id).1 token now = some u := by
    unfold sessionUserOf at h ⊢
    rw [loadSession_congr st _ hp]
    exact h
  have hud : sessionUserOf (route_demote st sessA id).1 token now = some u := by
    unfold sessionUserOf at h ⊢
    rw [loadSession_congr st _ hd]
    exact h
  refine ⟨hp, hd, hup, hud, ?_, ?_⟩
  · rw [hup]
    rfl
  · rw [hup]
    by_cases hadm : u.user_type = "admin" <;>
      simp [route_admin, isAuthenticated, hadm]

theorem session_snapshot_stale_witness :
    sessionUserOf
        (route_promote ⟨[⟨0, "A", "a@x.com", [], "user"⟩], 1,
          [(7, ⟨⟨"A", "a@x.com", "user"⟩, 999⟩)]⟩
          (some ⟨"R", "r@x.com", "admin"⟩) 0).1 7 1 =
      some ⟨"A", "a@x.com", "user"⟩ ∧
    route_admin
        (route_promote ⟨[⟨0, "A", "a@x.com", [], "user"⟩], 1,
          [(7, ⟨⟨"A", "a@x.com", "user"⟩, 999⟩)]⟩
          (some ⟨"R", "r@x.com", "admin"⟩) 0).1
        (sessionUserOf
          (route_promote ⟨[⟨0, "A", "a@x.com", [], "user"⟩], 1,
            [(7, ⟨⟨"A", "a@x.com", "user"⟩, 999⟩)]⟩
            (some ⟨"R", "r@x.com", "admin"⟩) 0).1 7 1) =
      Response.renderIndex (some ⟨"A", "a@x.com", "user"⟩) := by
  have h := session_snapshot_stale ⟨[⟨0, "A", "a@x.com", [], "user"⟩], 1,
    [(7, ⟨⟨"A", "a@x.com", "user"⟩, 999⟩)]⟩ (some ⟨"R", "r@x.com", "admin"⟩) 0 7 1
    ⟨"A", "a@x.com", "user"⟩ (by rfl)
  exact ⟨h.2.2.1, by simpa using h.2.2.2.2.2⟩

lemma find?_append_none {α : Type _} (p : α → Bool) (vs : List α) :
    ∀ us : List α, us.find? p = none → (us ++ vs).find? p = vs.find? p := by
  intro us
  induction us with
  | nil => intro _; rfl
  | cons a as ih =>
    intro h
    have ha : p a = false := by
      cases hpa : p a with
      | false => rfl
      | true => simp [List.find?, hpa] at h
    have has : as.find? p = none := by
      simp [List.find?, ha] at h
      exact List.find?_eq_none.mpr (fun x hx => by simp [h x hx])
    rw [List.cons_append]
    simp only [List.find?, ha]
    exact ih has

lemma findByEmail_append_right (us : List UserRec) (nu : UserRec) (e : String)
    (hfresh : ∀ u ∈ us, u.email ≠ e) (hnu : nu.email = e) :
    findByEmail (us ++ [nu]) e = some nu := by
  have h0 : us.find? (fun u => u.email == e) = none :=
    List.find?_eq_none.mpr (fun x hx => by simp [hfresh x hx])
  unfold findByEmail
  rw [find?_append_none _ [nu] us h0]
  simp [List.find?, hnu]

lemma sessionUserOf_create (st : AppState) (token : Nat) (u : SessionUser) (now : Nat) :
    sessionUserOf (createSession st token u now) token now = some u := by
  have hlt : now < now + sessionTTL := by
    have hpos : 0 < sessionTTL := by decide
    omega
  simp [sessionUserOf, loadSession, createSession, lookupSession, List.find?, hlt]

/-- C3 as frozen is refuted by the code: with no uniqueness constraint on
emails, a valid signup shadowed by an earlier record with the same email
makes the subsequent login (same email and password) find the older record
first and fail with "Invalid password" instead of redirecting. -/
theorem signup_then_login_counterexample :
    (signupValidate ⟨some "A", some "a@x.com", some "secret", none⟩ =
      Except.ok ⟨"A", "a@x.com", "secret", "user"⟩) ∧
    ((postLogin
        (postSignup
          ((postSignup ⟨[], 0, []⟩ 1 0 "ab".data
            ⟨some "B", some "a@x.com", some "other1", none⟩).1)
          2 0 "cd".data ⟨some "A", some "a@x.com", some "secret", none⟩).1
        2 0 ⟨some "a@x.com", some "secret"⟩).2 =
      Response.sendMsg "Invalid password" "/login") ∧
    ((postLogin
        (postSignup
          ((postSignup ⟨[], 0, []⟩ 1 0 "ab".data
            ⟨some "B", some "a@x.com", some "other1", none⟩).1)
          2 0 "cd".data ⟨some "A", some "a@x.com", some "secret", none⟩).1
        2 0 ⟨some "a@x.com", some "secret"⟩).2 ≠ Response.redirect "/members") := by
  refine ⟨rfl, rfl, ?_⟩
  decide

/-- C3 (amended): for every signup whose input passes validation, provided
no previously stored user already has the same email, a subsequent
`POST /login` with the same email and password redirects to `/members` and
attaches a session whose `user_type` equals the role stored at signup. -/
theorem signup_then_login (st : AppState) (token1 now1 token2 now2 : Nat)
    (salt : List Char) (b : SignupBody) (v : SignupVal)
    (hs : '$' ∉ salt)
    (hv : signupValidate b = Except.ok v)
    (hfresh : ∀ u ∈ st.users, u.email ≠ v.email) :
    (postSignup st token1 now1 salt b).2 = Response.redirect "/members" ∧
    (postLogin (postSignup st token1 now1 salt b).1 token2 now2
        ⟨some v.email, some v.password⟩).2 = Response.redirect "/members" ∧
    sessionUserOf
        (postLogin (postSignup st token1 now1 salt b).1 token2 now2
          ⟨some v.email, some v.password⟩).1 token2 now2 =
      some ⟨v.name, v.email, v.user_type⟩ := by
  rcases signupValidate_cases b with
    ⟨_, n, e, p, _, _, _, hok, _, he, hp5, hp30⟩ | ⟨_, m, herr⟩
  · have hveq : v = ⟨n, e, p, (b.user_type).getD "user"⟩ := by
      rw [hv] at hok
      exact Except.ok.inj hok
    subst hveq
    have hresp1 : (postSignup st token1 now1 salt b).2 = Response.redirect "/members" := by
      simp [postSignup, hv]
    have husers : (postSignup st token1 now1 salt b).1.users =
        st.users ++ [⟨st.nextId, n, e, bhash salt p.data, (b.user_type).getD "user"⟩] := by
      simp [postSignup, hv, createSession]
    have hp5n : ¬ (p.length < 5) := by omega
    have hp30n : ¬ (p.length > 30) := by omega
    have hlv : loginValidate ⟨some e, some p⟩ = Except.ok ⟨e, p⟩ := by
      simp [loginValidate, he, hp5n, hp30n]
    have hfind : findByEmail (postSignup st token1 now1 salt b).1.users e =
        some ⟨st.nextId, n, e, bhash salt p.data, (b.user_type).getD "user"⟩ := by
      rw [husers]
      exact findByEmail_append_right st.users _ e hfresh rfl
    have hbv : bverify p.data (bhash salt p.data) = true := bverify_bhash _ _ hs
    refine ⟨hresp1, ?_, ?_⟩
    · simp [postLogin, hlv, hfind, hbv]
    · simp [postLogin, hlv, hfind, hbv, sessionUserOf_create]
  · rw [hv] at herr
    cases herr

theorem signup_then_login_witness :
    (postSignup ⟨[], 0, []⟩ 1 0 "ab".data
      ⟨some "A", some "a@x.com", some "secret", some "admin"⟩).2 =
        Response.redirect "/members" ∧
    (postLogin (postSignup ⟨[], 0, []⟩ 1 0 "ab".data
        ⟨some "A", some "a@x.com", some "secret", some "admin"⟩).1 2 5
        ⟨some "a@x.com", some "secret"⟩).2 = Response.redirect "/members" ∧
    sessionUserOf
        (postLogin (postSignup ⟨[], 0, []⟩ 1 0 "ab".data
          ⟨some "A", some "a@x.com", some "secret", some "admin"⟩).1 2 5
          ⟨some "a@x.com", some "secret"⟩).1 2 5 =
      some ⟨"A", "a@x.com", "admin"⟩ :=
  signup_then_login ⟨[], 0, []⟩ 1 0 2 5 "ab".data
    ⟨some "A", some "a@x.com", some "secret", some "admin"⟩
    ⟨"A", "a@x.com", "secret", "admin"⟩ (by decide) (by rfl)
    (by intro u hu; cases hu)
